import Mathlib

/-!
# Verification of the appointment slot-availability and booking subsystem

Shallow embedding of the appointment booking core of the Neurodent backend:
the `Appointment` model statics (`models/Appointment.js`), the `Schedule`
model (`calculateTotalHours`), and the route handlers of
`routes/appointments.js` (availability resolution, booking, patient
cancel/reschedule, doctor reschedule) together with the schedule day-update
route.

Conventions of the embedding:
* calendar dates are day indices (`Nat`), compared date-only, exactly as the
  code compares `Date` values after stripping time-of-day;
* wall-clock times (`HH:MM` strings in the code) are `HM` records of hour
  and minute; 12-hour strings (`"H:MM AM"`) are a second constructor of
  `TimeStr`, dispatch on `includes(' ')` becomes dispatch on the constructor;
* "now" in lead-time checks is an absolute minute count; the instant of an
  appointment combines its day index with its start time
  (`date * 1440 + minutes`), mirroring `new Date(dateString + 'T' + start)`;
* the persistence layer is a `List Appointment`; the compound unique index
  with `partialFilterExpression: { status: { $nin: ['cancelled'] } }` is
  modelled by `insertDoc` / `saveDoc`, which reject a write whenever the
  written document is non-cancelled and a different stored document
  (different `_id`) is non-cancelled with the same
  (doctorId, appointmentDate, startTime, endTime) key.
-/

/-- Wall-clock time of day: hour and minute of an `HH:MM` 24-hour string. -/
structure HM where
  hour : Nat
  minute : Nat
deriving DecidableEq, Repr

/-- Minutes since midnight, the comparison the code performs with
`parseInt(t.split(':')[0]) * 60 + parseInt(t.split(':')[1])`. -/
def HM.toMinutes (t : HM) : Nat := t.hour * 60 + t.minute

/-- A time string as stored in a schedule slot: either 24-hour `"HH:MM"` or
12-hour `"H:MM AM/PM"` (the code distinguishes them by `includes(' ')`). -/
inductive TimeStr where
  | t24 (t : HM)
  | t12 (hour minute : Nat) (isPM : Bool)
deriving DecidableEq, Repr

/-- `convertTo24Hour` of `routes/appointments.js`: a 24-hour string is
returned unchanged; for a 12-hour string, `12 AM` maps to hour 0 and a PM
hour other than 12 gains 12. -/
def convertTo24Hour : TimeStr → HM
  | .t24 t => t
  | .t12 h m isPM =>
    if isPM then ⟨if h = 12 then 12 else h + 12, m⟩
    else ⟨if h = 12 then 0 else h, m⟩

/-- `status` field of an appointment document. -/
inductive AptStatus where
  | scheduled
  | confirmed
  | completed
  | cancelled
deriving DecidableEq, Repr

/-- An appointment document (`models/Appointment.js`).  `id` stands for the
Mongo `_id`; `appointmentDate` is a date-only day index. -/
structure Appointment where
  id : Nat
  patientId : Nat
  doctorId : Nat
  appointmentDate : Nat
  startTime : HM
  endTime : HM
  slotType : String
  symptoms : String
  notes : String
  isEmergency : Bool
  status : AptStatus
  rescheduleReason : String
  rescheduledAt : Option Nat
deriving DecidableEq, Repr

/-- The compound-index key (doctorId, appointmentDate, startTime, endTime). -/
def aptKey (a : Appointment) : Nat × Nat × HM × HM :=
  (a.doctorId, a.appointmentDate, a.startTime, a.endTime)

/-- `Appointment.isSlotAvailable`: no non-cancelled appointment of this
doctor on this date has exactly the given start and end times. -/
def isSlotAvailable (apts : List Appointment) (doctorId date : Nat)
    (startTime endTime : HM) : Bool :=
  !(apts.any fun a =>
    a.doctorId == doctorId && a.appointmentDate == date &&
    a.startTime == startTime && a.endTime == endTime &&
    a.status != AptStatus.cancelled)

/-- There is a non-cancelled appointment of this doctor on this date with
exactly this (start, end) pair: the predicate the slot route evaluates with
`existingAppointments.some(...)`. -/
def isBookedIn (apts : List Appointment) (doctorId date : Nat)
    (startTime endTime : HM) : Bool :=
  apts.any fun a =>
    a.doctorId == doctorId && a.appointmentDate == date &&
    a.status != AptStatus.cancelled &&
    a.startTime == startTime && a.endTime == endTime

/-- Insert of a new document, enforcing the partial unique index: the write
is rejected (`none`, surfaced by Mongo as error code 11000) when the new
document is non-cancelled and some stored non-cancelled document shares its
key. -/
def insertDoc (apts : List Appointment) (a : Appointment) :
    Option (List Appointment) :=
  if a.status != AptStatus.cancelled &&
      apts.any (fun b => b.status != AptStatus.cancelled && aptKey b == aptKey a)
  then none
  else some (a :: apts)

/-- Replace the first document satisfying `p` by `f` of it. -/
def updateFirst (p : Appointment → Bool) (f : Appointment → Appointment) :
    List Appointment → List Appointment
  | [] => []
  | a :: rest => if p a then f a :: rest else a :: updateFirst p f rest

/-- Save of a mutated document `a'` (matched by its `_id`), enforcing the
partial unique index against every other stored document. -/
def saveDoc (apts : List Appointment) (a' : Appointment) :
    Option (List Appointment) :=
  if a'.status != AptStatus.cancelled &&
      apts.any (fun b => b.id != a'.id &&
        b.status != AptStatus.cancelled && aptKey b == aptKey a')
  then none
  else some (updateFirst (fun x => x.id == a'.id) (fun _ => a') apts)

/-- A fresh `_id` for a new document (Mongo generates a fresh ObjectId). -/
def freshId (apts : List Appointment) : Nat :=
  apts.foldr (fun a m => max a.id m) 0 + 1

/-- The `"Available"` placeholder mapping of `POST /book`: before-noon
becomes Morning Consultations, before 5 PM Afternoon Procedures, otherwise
Evening Consultations; a concrete slot type passes through. -/
def mapSlotType (slotType : String) (startTime : HM) : String :=
  if slotType == "Available" then
    if startTime.hour < 12 then "Morning Consultations"
    else if startTime.hour < 17 then "Afternoon Procedures"
    else "Evening Consultations"
  else slotType

/-- Outcome of `POST /book`. -/
inductive BookResult where
  | validationError
  | conflict
  | booked (a : Appointment)
deriving DecidableEq, Repr

/-- `POST /book`, with the store read at the availability re-check (`chk`)
separated from the store written at insert time (`ins`) so that the race
window between step 5 and step 6 of the booking contract is expressible;
the sequential semantics is `bookAppointment` below, where both coincide.
Order of the handler: past-date check, availability re-check,
start-before-end check, insert; a duplicate-key rejection at insert is
translated to the same conflict outcome as the re-check.
`mkBookedAppointment` is the `new Appointment({...})` document the handler
writes: fresh id, `status: 'scheduled'`, placeholder slot type mapped. -/
def mkBookedAppointment (ins : List Appointment)
    (patientId doctorId date : Nat) (startTime endTime : HM)
    (slotType symptoms : String) : Appointment :=
  { id := freshId ins, patientId, doctorId, appointmentDate := date,
    startTime, endTime, slotType := mapSlotType slotType startTime, symptoms,
    notes := "", isEmergency := false, status := .scheduled,
    rescheduleReason := "", rescheduledAt := none }

/-- The booking handler, see `mkBookedAppointment` above. -/
def bookAppointmentRaced (chk ins : List Appointment)
    (today patientId doctorId date : Nat) (startTime endTime : HM)
    (slotType symptoms : String) : BookResult × List Appointment :=
  if date < today then (.validationError, ins)
  else if !(isSlotAvailable chk doctorId date startTime endTime) then
    (.conflict, ins)
  else if endTime.toMinutes ≤ startTime.toMinutes then (.validationError, ins)
  else
    match insertDoc ins (mkBookedAppointment ins patientId doctorId date
      startTime endTime slotType symptoms) with
    | some apts' =>
      (.booked (mkBookedAppointment ins patientId doctorId date
        startTime endTime slotType symptoms), apts')
    | none => (.conflict, ins)

/-- `POST /book` run sequentially against a single store. -/
def bookAppointment (apts : List Appointment)
    (today patientId doctorId date : Nat) (startTime endTime : HM)
    (slotType symptoms : String) : BookResult × List Appointment :=
  bookAppointmentRaced apts apts today patientId doctorId date
    startTime endTime slotType symptoms

/-- The `findOne` filter of patient cancel and patient reschedule:
`{ _id, patientId, status: { $in: ['scheduled', 'confirmed'] } }`. -/
def cancelFilter (aptId patientId : Nat) (a : Appointment) : Bool :=
  a.id == aptId && a.patientId == patientId &&
  (a.status == AptStatus.scheduled || a.status == AptStatus.confirmed)

/-- The instant of an appointment's start: its date combined with its start
time, in absolute minutes (`new Date(dateString + 'T' + startTime)`). -/
def combineInstant (date : Nat) (t : HM) : Nat := date * 1440 + t.toMinutes

/-- Outcome of `PATCH /cancel/:appointmentId`. -/
inductive CancelResult where
  | notFound
  | tooLate
  | ok
deriving DecidableEq, Repr

/-- `PATCH /cancel/:appointmentId` (patient): find the owned appointment in
a cancellable status, reject when its start instant is under 2 hours away
(`appointmentDateTime < twoHoursFromNow`), else set its status to
`cancelled` and save (the partial index never rejects a cancelled write). -/
def cancelAppointment (apts : List Appointment) (now : Nat)
    (aptId patientId : Nat) : CancelResult × List Appointment :=
  match apts.find? (cancelFilter aptId patientId) with
  | none => (.notFound, apts)
  | some a =>
    if combineInstant a.appointmentDate a.startTime < now + 120 then
      (.tooLate, apts)
    else
      (.ok, updateFirst (fun x => x.id == a.id)
        (fun x => { x with status := AptStatus.cancelled }) apts)

/-- Outcome of `PATCH /reschedule/:appointmentId` (patient). -/
inductive ReschedResult where
  | notFound
  | tooLate
  | conflict
  | serverError
  | ok (a : Appointment)
deriving DecidableEq, Repr

/-- `PATCH /reschedule/:appointmentId` (patient): find the owned appointment,
apply the 2-hour lead-time rule to the original slot, re-check availability
of the new slot with `Appointment.isSlotAvailable` (no exclusion of the
appointment being moved), then update date/times/slot type in place and
reset the status to `scheduled`. -/
def rescheduleAppointment (apts : List Appointment) (now : Nat)
    (aptId patientId newDate : Nat) (newStartTime newEndTime : HM)
    (newSlotType : String) : ReschedResult × List Appointment :=
  match apts.find? (cancelFilter aptId patientId) with
  | none => (.notFound, apts)
  | some orig =>
    if combineInstant orig.appointmentDate orig.startTime < now + 120 then
      (.tooLate, apts)
    else if !(isSlotAvailable apts orig.doctorId newDate
        newStartTime newEndTime) then
      (.conflict, apts)
    else
      let a' := { orig with
                  appointmentDate := newDate,
                  startTime := newStartTime, endTime := newEndTime,
                  slotType := newSlotType, status := AptStatus.scheduled }
      match saveDoc apts a' with
      | some apts' => (.ok a', apts')
      | none => (.serverError, apts)

/-- `determineSlotType` of the doctor reschedule handler: clinic-hour
bucketing of the new start hour, `Emergency` outside 9-20. -/
def determineSlotType (startTime : HM) : String :=
  let hour := startTime.hour
  if 9 ≤ hour ∧ hour < 12 then "Morning Consultations"
  else if 12 ≤ hour ∧ hour < 15 then "Afternoon Procedures"
  else if 15 ≤ hour ∧ hour < 17 then "Extended Afternoon"
  else if 17 ≤ hour ∧ hour < 20 then "Evening Consultations"
  else "Emergency"

/-- Outcome of `PATCH /doctor/reschedule/:appointmentId`. -/
inductive DocReschedResult where
  | notFound
  | conflict
  | serverError
  | ok (a : Appointment)
deriving DecidableEq, Repr

/-- `PATCH /doctor/reschedule/:appointmentId`: find the doctor's
appointment, run the conflict query -- which filters on `timeRange`, a
virtual that is absent from stored documents, so it never matches a row --
convert the 12-hour slot bounds, re-derive the slot type from clinic-hour
buckets, update in place keeping status `confirmed`, and save through the
store (a duplicate-key rejection here surfaces as a generic failure). -/
def doctorRescheduleAppointment (apts : List Appointment)
    (aptId doctorId newDate : Nat) (newSlotStart newSlotEnd : TimeStr)
    (reason : String) (now : Nat) : DocReschedResult × List Appointment :=
  match apts.find? (fun a => a.id == aptId && a.doctorId == doctorId) with
  | none => (.notFound, apts)
  | some appt =>
    let conflicting : Option Appointment := none
    match conflicting with
    | some _ => (.conflict, apts)
    | none =>
      let newStartTime := convertTo24Hour newSlotStart
      let newEndTime := convertTo24Hour newSlotEnd
      let newSlotType := determineSlotType newStartTime
      let a' := { appt with
                  appointmentDate := newDate,
                  startTime := newStartTime, endTime := newEndTime,
                  slotType := newSlotType, status := AptStatus.confirmed,
                  rescheduleReason :=
                    (if reason == "" then "Rescheduled by doctor" else reason),
                  rescheduledAt := some now }
      match saveDoc apts a' with
      | some apts' => (.ok a', apts')
      | none => (.serverError, apts)

/-- One mutating request against the appointment store. -/
inductive Op where
  | book (today patientId doctorId date : Nat) (startTime endTime : HM)
      (slotType symptoms : String)
  | cancel (now aptId patientId : Nat)
  | reschedulePatient (now aptId patientId newDate : Nat)
      (newStartTime newEndTime : HM) (newSlotType : String)
  | rescheduleDoctor (aptId doctorId newDate : Nat)
      (newSlotStart newSlotEnd : TimeStr) (reason : String) (now : Nat)

/-- The store after one request. -/
def applyOp (apts : List Appointment) : Op → List Appointment
  | .book today p D d s e st sy => (bookAppointment apts today p D d s e st sy).2
  | .cancel now id pid => (cancelAppointment apts now id pid).2
  | .reschedulePatient now id pid nd ns ne st =>
    (rescheduleAppointment apts now id pid nd ns ne st).2
  | .rescheduleDoctor id D nd s12 e12 r now =>
    (doctorRescheduleAppointment apts id D nd s12 e12 r now).2

/-- The store after a sequence of requests. -/
def applyOps (apts : List Appointment) (ops : List Op) : List Appointment :=
  ops.foldl applyOp apts

/-- The uniqueness invariant: no two non-cancelled stored appointments share
the (doctorId, appointmentDate, startTime, endTime) key. -/
def SlotOk (apts : List Appointment) : Prop :=
  apts.Pairwise fun a b =>
    ¬(a.status ≠ AptStatus.cancelled ∧ b.status ≠ AptStatus.cancelled ∧
      aptKey a = aptKey b)

/-- Stored `_id`s are pairwise distinct (a Mongo guarantee). -/
def IdsOk (apts : List Appointment) : Prop :=
  (apts.map Appointment.id).Nodup

/-- One schedule slot of a weekday (`scheduleSlotSchema`). -/
structure ScheduleSlot where
  startTime : TimeStr
  endTime : TimeStr
  type : String
  isAvailable : Bool
deriving DecidableEq, Repr

/-- Weekday names, the keys of `weeklySchedule`. -/
inductive Weekday where
  | monday | tuesday | wednesday | thursday | friday | saturday | sunday
deriving DecidableEq, Repr

/-- The fixed weekday of a day index. -/
def weekdayOf (date : Nat) : Weekday :=
  match date % 7 with
  | 0 => .monday
  | 1 => .tuesday
  | 2 => .wednesday
  | 3 => .thursday
  | 4 => .friday
  | 5 => .saturday
  | _ => .sunday

/-- `status` of a weekly schedule. -/
inductive SchedStatus where
  | draft | active | archived
deriving DecidableEq, Repr

/-- A weekly schedule document (`scheduleSchema`).  `createdAt` is the
creation timestamp added by `timestamps: true`; `totalHours` is kept in
hundredths of an hour so that the 2-decimal rounding is exact. -/
structure WeeklySchedule where
  doctorId : Nat
  weekStartDate : Nat
  weekEndDate : Nat
  createdAt : Nat
  monday : List ScheduleSlot
  tuesday : List ScheduleSlot
  wednesday : List ScheduleSlot
  thursday : List ScheduleSlot
  friday : List ScheduleSlot
  saturday : List ScheduleSlot
  sunday : List ScheduleSlot
  totalHours : Int
  status : SchedStatus
deriving DecidableEq, Repr

/-- `weeklySchedule[dayName]`. -/
def WeeklySchedule.daySlots (ws : WeeklySchedule) : Weekday → List ScheduleSlot
  | .monday => ws.monday
  | .tuesday => ws.tuesday
  | .wednesday => ws.wednesday
  | .thursday => ws.thursday
  | .friday => ws.friday
  | .saturday => ws.saturday
  | .sunday => ws.sunday

/-- The seven day lists in schema order (`Object.values(this.weeklySchedule)`). -/
def WeeklySchedule.allDays (ws : WeeklySchedule) : List (List ScheduleSlot) :=
  [ws.monday, ws.tuesday, ws.wednesday, ws.thursday, ws.friday,
   ws.saturday, ws.sunday]

/-- Stable insertion into a list kept in descending order of the key. -/
def insertDescBy (key : WeeklySchedule → Nat) (s : WeeklySchedule) :
    List WeeklySchedule → List WeeklySchedule
  | [] => [s]
  | t :: ts =>
    if key t ≤ key s then s :: t :: ts else t :: insertDescBy key s ts

/-- Stable sort in descending order of the key (the store's `sort({k: -1})`). -/
def sortDescBy (key : WeeklySchedule → Nat) :
    List WeeklySchedule → List WeeklySchedule
  | [] => []
  | s :: rest => insertDescBy key s (sortDescBy key rest)

/-- One entry of the slot list returned by the availability route. -/
structure SlotInfo where
  startTime : TimeStr
  endTime : TimeStr
  startTime24 : HM
  endTime24 : HM
  type : String
  isAvailable : Bool
deriving DecidableEq, Repr

/-- Result of `GET /doctor/:doctorId/slots/:date`: a past date is rejected;
"not scheduled" (no covering schedule, or an empty weekday list) is an
explicit failure distinct from a returned slot list. -/
inductive ResolveResult where
  | pastDate
  | notScheduled
  | ok (slots : List SlotInfo)
deriving DecidableEq, Repr

/-- Insertion into a list of appointments kept ascending by start time. -/
def insertByStart (a : Appointment) : List Appointment → List Appointment
  | [] => [a]
  | b :: bs =>
    if a.startTime.toMinutes ≤ b.startTime.toMinutes then a :: b :: bs
    else b :: insertByStart a bs

/-- Sort a list of appointments ascending by start time (the store's
`sort({ startTime: 1 })`). -/
def sortByStart : List Appointment → List Appointment
  | [] => []
  | a :: rest => insertByStart a (sortByStart rest)

/-- `Appointment.getDoctorAppointments`: non-cancelled appointments of the
doctor on the date, sorted by start time. -/
def getDoctorAppointments (apts : List Appointment) (doctorId date : Nat) :
    List Appointment :=
  sortByStart (apts.filter fun a =>
    a.doctorId == doctorId && a.appointmentDate == date &&
    a.status != AptStatus.cancelled)

/-- The slot-construction loop of the availability route: skip Day Off
entries, normalize both bounds with `convertTo24Hour`, and mark a slot
unavailable exactly when some fetched appointment has the identical
normalized start and end times. -/
def buildSlots (daySlots : List ScheduleSlot) (apts : List Appointment)
    (doctorId date : Nat) : List SlotInfo :=
  let existing := getDoctorAppointments apts doctorId date
  daySlots.filterMap fun slot =>
    if slot.type == "Day Off" then none
    else
      let startTime24 := convertTo24Hour slot.startTime
      let endTime24 := convertTo24Hour slot.endTime
      let isBooked := existing.any fun a =>
        a.startTime == startTime24 && a.endTime == endTime24
      some ⟨slot.startTime, slot.endTime, startTime24, endTime24,
        slot.type, !isBooked⟩

/-- The schedule-selection predicate of the availability route: the date
falls in `[weekStartDate, weekStartDate + 6]` (the handler recomputes the
week end from the start and never reads the stored `weekEndDate`). -/
def coversDate (ws : WeeklySchedule) (date : Nat) : Bool :=
  ws.weekStartDate ≤ date && date ≤ ws.weekStartDate + 6

/-- `GET /doctor/:doctorId/slots/:date`: reject past dates; load the active
schedules of the doctor sorted by `weekStartDate` descending; take the
first whose week contains the date; report "not scheduled" when none
matches or the matched weekday has no slots; otherwise build the slot
list. -/
def resolveAvailability (schedules : List WeeklySchedule)
    (apts : List Appointment) (doctorId date today : Nat) : ResolveResult :=
  if date < today then .pastDate
  else
    let actives := schedules.filter fun s =>
      s.doctorId == doctorId && s.status == SchedStatus.active
    match (sortDescBy WeeklySchedule.weekStartDate actives).find?
        (fun s => coversDate s date) with
    | none => .notScheduled
    | some sch =>
      let daySlots := sch.daySlots (weekdayOf date)
      if daySlots.isEmpty then .notScheduled
      else .ok (buildSlots daySlots apts doctorId date)

/-- Minutes since midnight of a stored slot bound, as produced by
`new Date('2000-01-01 ' + time)` (which reads 12-hour strings with the
same AM/PM convention as `convertTo24Hour`). -/
def TimeStr.toMinutes (t : TimeStr) : Int := (convertTo24Hour t).toMinutes

/-- `Math.round` on an exact rational `num / den` (`den > 0`): floor of
`num / den + 1 / 2`, i.e. rounding half toward positive infinity. -/
def jsRound (num den : Int) : Int := Int.fdiv (2 * num + den) (2 * den)

/-- `scheduleSchema.methods.calculateTotalHours`: total the minute spans of
every slot of every day whose type is not `'Day Off'` and whose
`isAvailable` is set, convert to hours and round to 2 decimals.  The result
is in hundredths of an hour: `Math.round(totalMinutes / 60 * 100)`. -/
def calculateTotalHours (ws : WeeklySchedule) : Int :=
  let totalMinutes := ws.allDays.foldl
    (fun acc daySlots => daySlots.foldl
      (fun acc2 slot =>
        if slot.type != "Day Off" && slot.isAvailable then
          acc2 + (slot.endTime.toMinutes - slot.startTime.toMinutes)
        else acc2)
      acc)
    0
  jsRound (totalMinutes * 100) 60

/-- Replace one weekday's slot list. -/
def setDay (ws : WeeklySchedule) (day : Weekday) (slots : List ScheduleSlot) :
    WeeklySchedule :=
  match day with
  | .monday => { ws with monday := slots }
  | .tuesday => { ws with tuesday := slots }
  | .wednesday => { ws with wednesday := slots }
  | .thursday => { ws with thursday := slots }
  | .friday => { ws with friday := slots }
  | .saturday => { ws with saturday := slots }
  | .sunday => { ws with sunday := slots }

/-- `PUT /day/:day` of the schedule routes: overwrite the day's slot list
and recompute `totalHours` before saving. -/
def updateDaySchedule (ws : WeeklySchedule) (day : Weekday)
    (slots : List ScheduleSlot) : WeeklySchedule :=
  let ws' := setDay ws day slots
  { ws' with totalHours := calculateTotalHours ws' }

/-- The contribution of one slot to the weekly total, as the spec words it:
a `Day Off` slot contributes 0 regardless of its nominal span, a slot with
`isAvailable` unset contributes 0, any other slot contributes its
`endTime - startTime` span. -/
def specSlotMinutes (slot : ScheduleSlot) : Int :=
  if slot.type = "Day Off" then 0
  else if slot.isAvailable then
    slot.endTime.toMinutes - slot.startTime.toMinutes
  else 0

/-- Modelled from the spec: the derived `totalHours` value, "sum of
`endTime - startTime` across all slots whose `sessionType` is not `DayOff`
and whose `isAvailable` is true, in hours, rounded to 2 decimals" -- here
in hundredths of an hour. -/
def specTotalHours (ws : WeeklySchedule) : Int :=
  jsRound ((ws.allDays.map (fun d => (d.map specSlotMinutes).sum)).sum * 100) 60

/-- Modelled from the spec, for comparison with the implementation: the
schedule selection as claim C9 words it -- active schedules of the doctor
ordered so the most recently created is preferred, first schedule whose
stored inclusive `[weekStartDate, weekEndDate]` range contains the date. -/
def resolveAvailabilitySpecC9 (schedules : List WeeklySchedule)
    (apts : List Appointment) (doctorId date today : Nat) : ResolveResult :=
  if date < today then .pastDate
  else
    let actives := schedules.filter fun s =>
      s.doctorId == doctorId && s.status == SchedStatus.active
    match (sortDescBy WeeklySchedule.createdAt actives).find?
        (fun s => s.weekStartDate ≤ date && date ≤ s.weekEndDate) with
    | none => .notScheduled
    | some sch =>
      let daySlots := sch.daySlots (weekdayOf date)
      if daySlots.isEmpty then .notScheduled
      else .ok (buildSlots daySlots apts doctorId date)

/-- Store well-formedness: slot uniqueness plus distinct ids. -/
def WF (apts : List Appointment) : Prop := SlotOk apts ∧ IdsOk apts

/-- Mark a slot-list entry unavailable when its normalized times are exactly
(s, e); used to describe the effect of one booking on the resolver output. -/
def markBooked (s e : HM) (si : SlotInfo) : SlotInfo :=
  if si.startTime24 = s ∧ si.endTime24 = e then
    { si with isAvailable := false }
  else si

/-- Fixture: a scheduled 9:00-10:00 appointment of doctor 1 on day 103. -/
def apt1 : Appointment :=
  { id := 1, patientId := 1, doctorId := 1, appointmentDate := 103,
    startTime := ⟨9, 0⟩, endTime := ⟨10, 0⟩,
    slotType := "Morning Consultations", symptoms := "", notes := "",
    isEmergency := false, status := .scheduled, rescheduleReason := "",
    rescheduledAt := none }

/-- Fixture: an appointment whose start instant is minute 121 of day 0. -/
def aptW : Appointment :=
  { apt1 with
    id := 2, appointmentDate := 0, startTime := ⟨2, 1⟩, endTime := ⟨3, 0⟩ }

/-- Fixture: a stored appointment whose start is after its end. -/
def aptC6 : Appointment :=
  { apt1 with
    id := 3, doctorId := 2, appointmentDate := 5, startTime := ⟨10, 0⟩,
    endTime := ⟨9, 0⟩ }

/-- Fixture: a 9:00-10:00 Morning Consultations schedule slot. -/
def slotMorning : ScheduleSlot :=
  { startTime := .t24 ⟨9, 0⟩, endTime := .t24 ⟨10, 0⟩,
    type := "Morning Consultations", isAvailable := true }

/-- Fixture: an 11:00-12:00 Surgery schedule slot. -/
def slotSurgery : ScheduleSlot :=
  { startTime := .t24 ⟨11, 0⟩, endTime := .t24 ⟨12, 0⟩,
    type := "Surgery", isAvailable := true }

/-- Fixture: active schedule of doctor 1 for week 100-106, created at 10,
with one Saturday slot (day 103 is a Saturday under `weekdayOf`). -/
def wsA : WeeklySchedule :=
  { doctorId := 1, weekStartDate := 100, weekEndDate := 106, createdAt := 10,
    monday := [], tuesday := [], wednesday := [], thursday := [], friday := [],
    saturday := [slotMorning], sunday := [], totalHours := 0,
    status := .active }

/-- Fixture: a second active schedule of doctor 1 for week 101-107, created
earlier (at 5) but with a later week start. -/
def wsB : WeeklySchedule :=
  { wsA with
    weekStartDate := 101, weekEndDate := 107, createdAt := 5,
    saturday := [slotSurgery] }

/-! ## Store lemmas -/

theorem mem_updateFirst {p : Appointment → Bool} {f : Appointment → Appointment}
    {l : List Appointment} {b : Appointment} (hb : b ∈ updateFirst p f l) :
    b ∈ l ∨ ∃ a, a ∈ l ∧ p a = true ∧ b = f a := by
  induction l with
  | nil => simp [updateFirst] at hb
  | cons a rest ih =>
    simp only [updateFirst] at hb
    by_cases hpa : p a = true
    · rw [if_pos hpa] at hb
      rcases List.mem_cons.mp hb with hb | hb
      · exact Or.inr ⟨a, List.mem_cons_self a rest, hpa, hb⟩
      · exact Or.inl (List.mem_cons_of_mem a hb)
    · rw [if_neg hpa] at hb
      rcases List.mem_cons.mp hb with hb | hb
      · exact Or.inl (hb ▸ List.mem_cons_self a rest)
      · rcases ih hb with h | ⟨x, hx, hpx, hbx⟩
        · exact Or.inl (List.mem_cons_of_mem a h)
        · exact Or.inr ⟨x, List.mem_cons_of_mem a hx, hpx, hbx⟩

theorem map_id_updateFirst {p : Appointment → Bool} {f : Appointment → Appointment}
    (hf : ∀ x, p x = true → (f x).id = x.id) :
    ∀ l : List Appointment,
      (updateFirst p f l).map Appointment.id = l.map Appointment.id := by
  intro l
  induction l with
  | nil => rfl
  | cons a rest ih =>
    by_cases hpa : p a = true
    · simp [updateFirst, hpa, hf a hpa]
    · simp [updateFirst, hpa, ih]

theorem forall2_updateFirst (p : Appointment → Bool) (f : Appointment → Appointment) :
    ∀ l : List Appointment,
      List.Forall₂ (fun old new => new = old ∨ new = f old) l (updateFirst p f l) := by
  intro l
  induction l with
  | nil => exact List.Forall₂.nil
  | cons a rest ih =>
    by_cases hpa : p a = true
    · rw [updateFirst, if_pos hpa]
      refine List.Forall₂.cons (Or.inr rfl) ?_
      clear ih
      induction rest with
      | nil => exact List.Forall₂.nil
      | cons b bs ihb => exact List.Forall₂.cons (Or.inl rfl) ihb
    · rw [updateFirst, if_neg hpa]
      exact List.Forall₂.cons (Or.inl rfl) ih

theorem id_lt_freshId {a : Appointment} :
    ∀ {apts : List Appointment}, a ∈ apts → a.id < freshId apts := by
  intro apts
  induction apts with
  | nil => intro h; cases h
  | cons b rest ih =>
    intro h
    have hle : a.id ≤ (b :: rest).foldr (fun x m => max x.id m) 0 := by
      rcases List.mem_cons.mp h with h | h
      · subst h; exact le_max_left _ _
      · have := ih h
        unfold freshId at this
        calc a.id ≤ rest.foldr (fun x m => max x.id m) 0 :=
              Nat.lt_succ_iff.mp this
          _ ≤ _ := le_max_right _ _
    exact Nat.lt_succ_of_le hle

theorem freshId_not_mem (apts : List Appointment) :
    freshId apts ∉ apts.map Appointment.id := by
  intro h
  rcases List.mem_map.mp h with ⟨a, ha, hid⟩
  exact absurd hid (Nat.ne_of_lt (id_lt_freshId ha))

/-! ## Uniqueness-invariant preservation -/

theorem slotOk_insertDoc {apts apts' : List Appointment} {a : Appointment}
    (hok : SlotOk apts) (h : insertDoc apts a = some apts') : SlotOk apts' := by
  unfold insertDoc at h
  split at h
  · cases h
  next hc =>
    injection h with h
    subst h
    refine List.pairwise_cons.mpr ⟨?_, hok⟩
    intro b hb
    rintro ⟨hna, hnb, hkey⟩
    apply hc
    simp only [Bool.and_eq_true, List.any_eq_true, bne_iff_ne, ne_eq, beq_iff_eq]
    exact ⟨hna, b, hb, hnb, hkey.symm⟩

theorem slotOk_updateFirst_toCancelled (p : Appointment → Bool)
    (f : Appointment → Appointment) (hf : ∀ x, (f x).status = AptStatus.cancelled) :
    ∀ {apts : List Appointment}, SlotOk apts → SlotOk (updateFirst p f apts) := by
  intro apts
  induction apts with
  | nil => intro _; exact List.Pairwise.nil
  | cons a rest ih =>
    intro hok
    rcases List.pairwise_cons.mp hok with ⟨ha, hrest⟩
    by_cases hpa : p a = true
    · rw [updateFirst, if_pos hpa]
      refine List.pairwise_cons.mpr ⟨?_, hrest⟩
      intro b _
      rintro ⟨hna, _, _⟩
      exact hna (hf a)
    · rw [updateFirst, if_neg hpa]
      refine List.pairwise_cons.mpr ⟨?_, ih hrest⟩
      intro b hb
      rcases mem_updateFirst hb with h | ⟨x, hx, _, hbx⟩
      · exact ha b h
      · subst hbx
        rintro ⟨_, hnb, _⟩
        exact hnb (hf x)

theorem slotOk_updateFirst_replace {a' : Appointment} :
    ∀ {apts : List Appointment}, IdsOk apts → SlotOk apts →
      (∀ b ∈ apts, b.id ≠ a'.id →
        ¬(b.status ≠ AptStatus.cancelled ∧ aptKey b = aptKey a')) →
      SlotOk (updateFirst (fun x => x.id == a'.id) (fun _ => a') apts) := by
  intro apts
  induction apts with
  | nil =>
    intro _ _ _
    exact List.Pairwise.nil
  | cons a rest ih =>
    intro hids hok hall
    rcases List.pairwise_cons.mp hok with ⟨ha, hrest⟩
    have hids' : IdsOk rest := (List.nodup_cons.mp hids).2
    have hanotin : a.id ∉ rest.map Appointment.id := (List.nodup_cons.mp hids).1
    by_cases hpa : (a.id == a'.id) = true
    · rw [updateFirst, if_pos hpa]
      have haid : a.id = a'.id := beq_iff_eq.mp hpa
      refine List.pairwise_cons.mpr ⟨?_, hrest⟩
      intro b hb
      rintro ⟨hna', hnb, hkey⟩
      have hbid : b.id ≠ a'.id := by
        intro hbe
        exact hanotin (haid ▸ hbe ▸ List.mem_map_of_mem Appointment.id hb)
      exact hall b (List.mem_cons_of_mem a hb) hbid ⟨hnb, hkey.symm⟩
    · rw [updateFirst, if_neg hpa]
      refine List.pairwise_cons.mpr
        ⟨?_, ih hids' hrest (fun b hb => hall b (List.mem_cons_of_mem a hb))⟩
      intro b hb
      rcases mem_updateFirst hb with hmem | ⟨x, _, _, hbx⟩
      · exact ha b hmem
      · rintro ⟨hna, hnb, hkey⟩
        have haid : a.id ≠ a'.id := fun he => hpa (beq_iff_eq.mpr he)
        rw [hbx] at hkey
        exact hall a (List.mem_cons_self a rest) haid ⟨hna, hkey⟩

theorem slotOk_saveDoc {apts apts' : List Appointment} {a' : Appointment}
    (hids : IdsOk apts) (hok : SlotOk apts) (h : saveDoc apts a' = some apts') :
    SlotOk apts' := by
  unfold saveDoc at h
  split at h
  · cases h
  next hc =>
    injection h with h
    subst h
    by_cases hcs : a'.status = AptStatus.cancelled
    · exact slotOk_updateFirst_toCancelled _ _ (fun _ => hcs) hok
    · refine slotOk_updateFirst_replace hids hok ?_
      intro b hb hbid hcon
      apply hc
      simp only [Bool.and_eq_true, List.any_eq_true, bne_iff_ne, ne_eq, beq_iff_eq]
      exact ⟨hcs, b, hb, ⟨hbid, hcon.1⟩, hcon.2⟩

theorem idsOk_updateFirst {p : Appointment → Bool} {f : Appointment → Appointment}
    (hf : ∀ x, p x = true → (f x).id = x.id) {apts : List Appointment}
    (h : IdsOk apts) : IdsOk (updateFirst p f apts) := by
  unfold IdsOk
  rw [map_id_updateFirst hf]
  exact h

theorem idsOk_saveDoc {apts apts' : List Appointment} {a' : Appointment}
    (hids : IdsOk apts) (h : saveDoc apts a' = some apts') : IdsOk apts' := by
  unfold saveDoc at h
  split at h
  · cases h
  · injection h with h
    subst h
    exact idsOk_updateFirst (fun x hx => (beq_iff_eq.mp hx).symm) hids

theorem idsOk_insertDoc {apts apts' : List Appointment} {a : Appointment}
    (hids : IdsOk apts) (hfresh : a.id ∉ apts.map Appointment.id)
    (h : insertDoc apts a = some apts') : IdsOk apts' := by
  unfold insertDoc at h
  split at h
  · cases h
  · injection h with h
    subst h
    exact List.nodup_cons.mpr ⟨hfresh, hids⟩

theorem wf_book {apts : List Appointment} (h : WF apts)
    (today p D d : Nat) (s e : HM) (st sy : String) :
    WF (bookAppointment apts today p D d s e st sy).2 := by
  obtain ⟨hok, hids⟩ := h
  simp only [bookAppointment, bookAppointmentRaced]
  split
  · exact ⟨hok, hids⟩
  split
  · exact ⟨hok, hids⟩
  split
  · exact ⟨hok, hids⟩
  · split
    next apts' hins =>
      exact ⟨slotOk_insertDoc hok hins,
        idsOk_insertDoc hids (freshId_not_mem apts) hins⟩
    · exact ⟨hok, hids⟩

theorem wf_cancel {apts : List Appointment} (h : WF apts)
    (now id pid : Nat) : WF (cancelAppointment apts now id pid).2 := by
  obtain ⟨hok, hids⟩ := h
  simp only [cancelAppointment]
  split
  · exact ⟨hok, hids⟩
  next a hfind =>
    split
    · exact ⟨hok, hids⟩
    · constructor
      · exact slotOk_updateFirst_toCancelled (fun x => x.id == a.id)
          (fun x => { x with status := AptStatus.cancelled }) (fun _ => rfl) hok
      · exact @idsOk_updateFirst (fun x => x.id == a.id)
          (fun x => { x with status := AptStatus.cancelled }) (fun _ _ => rfl)
          apts hids

theorem wf_reschedulePatient {apts : List Appointment} (h : WF apts)
    (now id pid nd : Nat) (ns ne : HM) (st : String) :
    WF (rescheduleAppointment apts now id pid nd ns ne st).2 := by
  obtain ⟨hok, hids⟩ := h
  simp only [rescheduleAppointment]
  split
  · exact ⟨hok, hids⟩
  · split
    · exact ⟨hok, hids⟩
    split
    · exact ⟨hok, hids⟩
    · split
      next apts' hsave =>
        exact ⟨slotOk_saveDoc hids hok hsave, idsOk_saveDoc hids hsave⟩
      · exact ⟨hok, hids⟩

theorem wf_rescheduleDoctor {apts : List Appointment} (h : WF apts)
    (id D nd : Nat) (s12 e12 : TimeStr) (r : String) (now : Nat) :
    WF (doctorRescheduleAppointment apts id D nd s12 e12 r now).2 := by
  obtain ⟨hok, hids⟩ := h
  simp only [doctorRescheduleAppointment]
  split
  · exact ⟨hok, hids⟩
  · split
    next apts' hsave =>
      exact ⟨slotOk_saveDoc hids hok hsave, idsOk_saveDoc hids hsave⟩
    · exact ⟨hok, hids⟩

theorem wf_applyOp {apts : List Appointment} (h : WF apts) (op : Op) :
    WF (applyOp apts op) := by
  cases op with
  | book today p D d s e st sy => exact wf_book h today p D d s e st sy
  | cancel now id pid => exact wf_cancel h now id pid
  | reschedulePatient now id pid nd ns ne st =>
    exact wf_reschedulePatient h now id pid nd ns ne st
  | rescheduleDoctor id D nd s12 e12 r now =>
    exact wf_rescheduleDoctor h id D nd s12 e12 r now

theorem wf_applyOps {apts : List Appointment} (h : WF apts) :
    ∀ ops : List Op, WF (applyOps apts ops) := by
  intro ops
  induction ops generalizing apts with
  | nil => exact h
  | cons op rest ih => exact ih (wf_applyOp h op)

/-! ## Resolver lemmas -/

theorem mem_insertDescBy {key : WeeklySchedule → Nat} {s x : WeeklySchedule} :
    ∀ {l : List WeeklySchedule}, x ∈ insertDescBy key s l ↔ x = s ∨ x ∈ l := by
  intro l
  induction l with
  | nil => simp [insertDescBy]
  | cons t ts ih =>
    simp only [insertDescBy]
    split
    · simp [List.mem_cons]
    · simp only [List.mem_cons, ih]
      tauto

theorem mem_sortDescBy {key : WeeklySchedule → Nat} {x : WeeklySchedule} :
    ∀ {l : List WeeklySchedule}, x ∈ sortDescBy key l ↔ x ∈ l := by
  intro l
  induction l with
  | nil => simp [sortDescBy]
  | cons s rest ih =>
    simp only [sortDescBy, mem_insertDescBy, List.mem_cons, ih]

theorem sorted_insertDescBy {key : WeeklySchedule → Nat} {s : WeeklySchedule} :
    ∀ {l : List WeeklySchedule},
      l.Pairwise (fun a b => key b ≤ key a) →
      (insertDescBy key s l).Pairwise (fun a b => key b ≤ key a) := by
  intro l
  induction l with
  | nil =>
    intro _
    simp [insertDescBy]
  | cons t ts ih =>
    intro h
    rcases List.pairwise_cons.mp h with ⟨ht, hts⟩
    simp only [insertDescBy]
    split
    next hle =>
      refine List.pairwise_cons.mpr ⟨?_, h⟩
      intro b hb
      rcases List.mem_cons.mp hb with rfl | hb
      · exact hle
      · exact le_trans (ht b hb) hle
    next hgt =>
      refine List.pairwise_cons.mpr ⟨?_, ih hts⟩
      intro b hb
      rcases mem_insertDescBy.mp hb with rfl | hb
      · exact le_of_not_le hgt
      · exact ht b hb

theorem sorted_sortDescBy (key : WeeklySchedule → Nat) :
    ∀ l : List WeeklySchedule,
      (sortDescBy key l).Pairwise (fun a b => key b ≤ key a) := by
  intro l
  induction l with
  | nil => exact List.Pairwise.nil
  | cons s rest ih => exact sorted_insertDescBy ih

theorem find?_sorted_max {key : WeeklySchedule → Nat} {p : WeeklySchedule → Bool}
    {x : WeeklySchedule} :
    ∀ {l : List WeeklySchedule},
      l.Pairwise (fun a b => key b ≤ key a) → l.find? p = some x →
      x ∈ l ∧ p x = true ∧ ∀ y ∈ l, p y = true → key y ≤ key x := by
  intro l
  induction l with
  | nil => intro _ h; cases h
  | cons a rest ih =>
    intro hs h
    rcases List.pairwise_cons.mp hs with ⟨ha, hrest⟩
    by_cases hpa : p a = true
    · rw [List.find?_cons_of_pos _ hpa] at h
      injection h with h
      subst h
      refine ⟨List.mem_cons_self _ _, hpa, ?_⟩
      intro y hy _
      rcases List.mem_cons.mp hy with rfl | hy
      · exact le_refl _
      · exact ha y hy
    · rw [List.find?_cons_of_neg _ (by simpa using hpa)] at h
      obtain ⟨hmem, hpx, hmax⟩ := ih hrest h
      refine ⟨List.mem_cons_of_mem a hmem, hpx, ?_⟩
      intro y hy hpy
      rcases List.mem_cons.mp hy with rfl | hy
      · exact absurd hpy hpa
      · exact hmax y hy hpy

theorem mem_insertByStart {a x : Appointment} :
    ∀ {l : List Appointment}, x ∈ insertByStart a l ↔ x = a ∨ x ∈ l := by
  intro l
  induction l with
  | nil => simp [insertByStart]
  | cons b bs ih =>
    simp only [insertByStart]
    split
    · simp [List.mem_cons]
    · simp only [List.mem_cons, ih]
      tauto

theorem mem_sortByStart {x : Appointment} :
    ∀ {l : List Appointment}, x ∈ sortByStart l ↔ x ∈ l := by
  intro l
  induction l with
  | nil => simp [sortByStart]
  | cons a rest ih =>
    simp only [sortByStart, mem_insertByStart, List.mem_cons, ih]

theorem getDoctorAppointments_any (apts : List Appointment) (D d : Nat)
    (q : Appointment → Bool) :
    ((getDoctorAppointments apts D d).any q = true) ↔
      ∃ a ∈ apts, (a.doctorId == D && a.appointmentDate == d &&
        a.status != AptStatus.cancelled) = true ∧ q a = true := by
  simp only [getDoctorAppointments, List.any_eq_true, mem_sortByStart,
    List.mem_filter]
  constructor
  · rintro ⟨a, ⟨ha, hf⟩, hq⟩
    exact ⟨a, ha, hf, hq⟩
  · rintro ⟨a, ha, hf, hq⟩
    exact ⟨a, ⟨ha, hf⟩, hq⟩

/-- The booked test performed inside the slot loop agrees with
`isBookedIn`. -/
theorem buildSlots_booked_eq (apts : List Appointment) (D d : Nat) (s e : HM) :
    ((getDoctorAppointments apts D d).any fun a =>
        a.startTime == s && a.endTime == e) = isBookedIn apts D d s e := by
  rw [Bool.eq_iff_iff]
  rw [getDoctorAppointments_any]
  simp only [isBookedIn, List.any_eq_true, Bool.and_eq_true]
  constructor
  · rintro ⟨a, ha, ⟨⟨h1, h2⟩, h3⟩, h4, h5⟩
    exact ⟨a, ha, ⟨⟨⟨h1, h2⟩, h3⟩, h4⟩, h5⟩
  · rintro ⟨a, ha, ⟨⟨⟨h1, h2⟩, h3⟩, h4⟩, h5⟩
    exact ⟨a, ha, ⟨⟨h1, h2⟩, h3⟩, h4, h5⟩

/-- `buildSlots`, rewritten through `isBookedIn`. -/
theorem buildSlots_eq (ds : List ScheduleSlot) (apts : List Appointment)
    (D d : Nat) :
    buildSlots ds apts D d = ds.filterMap (fun slot =>
      if slot.type == "Day Off" then none
      else
        some ⟨slot.startTime, slot.endTime, convertTo24Hour slot.startTime,
          convertTo24Hour slot.endTime, slot.type,
          !(isBookedIn apts D d (convertTo24Hour slot.startTime)
            (convertTo24Hour slot.endTime))⟩) := by
  simp only [buildSlots]
  congr 1
  funext slot
  split
  · rfl
  · rw [buildSlots_booked_eq]

theorem isBookedIn_cons (a : Appointment) (apts : List Appointment)
    (D d : Nat) (s e : HM) :
    isBookedIn (a :: apts) D d s e =
      ((a.doctorId == D && a.appointmentDate == d &&
        a.status != AptStatus.cancelled &&
        a.startTime == s && a.endTime == e) || isBookedIn apts D d s e) := by
  simp [isBookedIn, List.any_cons]

theorem resolve_ok_inv {schedules : List WeeklySchedule}
    {apts : List Appointment} {doctorId date today : Nat}
    {slots : List SlotInfo}
    (h : resolveAvailability schedules apts doctorId date today = .ok slots) :
    today ≤ date ∧ ∃ sch,
      sch ∈ schedules ∧ sch.doctorId = doctorId ∧
      sch.status = SchedStatus.active ∧ coversDate sch date = true ∧
      (∀ s' ∈ schedules, s'.doctorId = doctorId →
        s'.status = SchedStatus.active → coversDate s' date = true →
        s'.weekStartDate ≤ sch.weekStartDate) ∧
      sch.daySlots (weekdayOf date) ≠ [] ∧
      slots = buildSlots (sch.daySlots (weekdayOf date)) apts doctorId date := by
  simp only [resolveAvailability] at h
  split at h
  · cases h
  next hpast =>
    split at h
    · cases h
    next sch hfind =>
      split at h
      · cases h
      next hne =>
        injection h with h
        obtain ⟨hmem, hp, hmax⟩ :=
          find?_sorted_max (sorted_sortDescBy WeeklySchedule.weekStartDate _) hfind
        obtain ⟨hin, hpred⟩ := List.mem_filter.mp (mem_sortDescBy.mp hmem)
        rw [Bool.and_eq_true] at hpred
        refine ⟨Nat.le_of_not_lt hpast, sch, hin,
          beq_iff_eq.mp hpred.1, beq_iff_eq.mp hpred.2, hp, ?_, ?_, h.symm⟩
        · intro s' hs' hd' hst' hcov'
          refine hmax s' ?_ hcov'
          refine mem_sortDescBy.mpr (List.mem_filter.mpr ⟨hs', ?_⟩)
          rw [Bool.and_eq_true]
          exact ⟨beq_iff_eq.mpr hd', beq_iff_eq.mpr hst'⟩
        · intro hnil
          rw [hnil] at hne
          simp at hne

theorem resolve_notScheduled_of_no_cover {schedules : List WeeklySchedule}
    {apts : List Appointment} {doctorId date today : Nat}
    (htoday : today ≤ date)
    (h : ∀ s ∈ schedules, ¬(s.doctorId = doctorId ∧
      s.status = SchedStatus.active ∧ coversDate s date = true)) :
    resolveAvailability schedules apts doctorId date today = .notScheduled := by
  simp only [resolveAvailability]
  rw [if_neg (Nat.not_lt.mpr htoday)]
  have hnone : (sortDescBy WeeklySchedule.weekStartDate
      (schedules.filter fun s => s.doctorId == doctorId &&
        s.status == SchedStatus.active)).find? (fun s => coversDate s date)
      = none := by
    rw [List.find?_eq_none]
    intro x hx hcov
    obtain ⟨hin, hpred⟩ := List.mem_filter.mp (mem_sortDescBy.mp hx)
    rw [Bool.and_eq_true] at hpred
    exact h x hin ⟨beq_iff_eq.mp hpred.1, beq_iff_eq.mp hpred.2, hcov⟩
  rw [hnone]

theorem resolve_congr {schedules : List WeeklySchedule}
    {apts1 apts2 : List Appointment} {doctorId date today : Nat}
    (h : ∀ ds : List ScheduleSlot,
      buildSlots ds apts1 doctorId date = buildSlots ds apts2 doctorId date) :
    resolveAvailability schedules apts1 doctorId date today =
      resolveAvailability schedules apts2 doctorId date today := by
  simp only [resolveAvailability]
  split
  · rfl
  · cases hfind : (sortDescBy WeeklySchedule.weekStartDate
        (schedules.filter fun s => s.doctorId == doctorId &&
          s.status == SchedStatus.active)).find? (fun s => coversDate s date)
      with
    | none => rfl
    | some sch =>
      split
      · rfl
      · rw [h]

theorem buildSlots_insert (ds : List ScheduleSlot) (apts : List Appointment)
    (a : Appointment) (D d : Nat)
    (h1 : a.doctorId = D) (h2 : a.appointmentDate = d)
    (h3 : a.status ≠ AptStatus.cancelled) :
    buildSlots ds (a :: apts) D d =
      (buildSlots ds apts D d).map (markBooked a.startTime a.endTime) := by
  rw [buildSlots_eq, buildSlots_eq]
  induction ds with
  | nil => rfl
  | cons slot rest ih =>
    by_cases hoff : (slot.type == "Day Off") = true
    · simpa only [List.filterMap_cons, hoff, if_true] using ih
    · rw [Bool.not_eq_true] at hoff
      simp only [List.filterMap_cons, hoff, Bool.false_eq_true, if_false,
        List.map_cons]
      rw [ih]
      congr 1
      rw [isBookedIn_cons]
      unfold markBooked
      by_cases hm : convertTo24Hour slot.startTime = a.startTime ∧
          convertTo24Hour slot.endTime = a.endTime
      · rw [if_pos hm]
        have htrue : (a.doctorId == D && a.appointmentDate == d &&
            a.status != AptStatus.cancelled &&
            a.startTime == convertTo24Hour slot.startTime &&
            a.endTime == convertTo24Hour slot.endTime) = true := by
          simp only [Bool.and_eq_true, beq_iff_eq, bne_iff_ne]
          exact ⟨⟨⟨⟨h1, h2⟩, h3⟩, hm.1.symm⟩, hm.2.symm⟩
        rw [htrue]
        simp
      · rw [if_neg hm]
        have hfalse : (a.doctorId == D && a.appointmentDate == d &&
            a.status != AptStatus.cancelled &&
            a.startTime == convertTo24Hour slot.startTime &&
            a.endTime == convertTo24Hour slot.endTime) = false := by
          rw [Bool.eq_false_iff]
          intro hcon
          simp only [Bool.and_eq_true, beq_iff_eq, bne_iff_ne] at hcon
          exact hm ⟨hcon.1.2.symm, hcon.2.symm⟩
        rw [hfalse]
        simp

/-! ## Booking lemmas -/

theorem isSlotAvailable_eq_not_isBookedIn (apts : List Appointment)
    (D d : Nat) (s e : HM) :
    isSlotAvailable apts D d s e = !(isBookedIn apts D d s e) := by
  unfold isSlotAvailable isBookedIn
  congr 1
  induction apts with
  | nil => rfl
  | cons a rest ih =>
    simp only [List.any_cons, ih]
    congr 1
    cases a.doctorId == D <;> cases a.appointmentDate == d <;>
      cases a.startTime == s <;> cases a.endTime == e <;>
      cases a.status != AptStatus.cancelled <;> rfl

theorem insertDoc_none_of_booked {apts : List Appointment} {a : Appointment}
    (hnc : a.status ≠ AptStatus.cancelled)
    (hb : isBookedIn apts a.doctorId a.appointmentDate a.startTime a.endTime
      = true) : insertDoc apts a = none := by
  unfold insertDoc
  rw [if_pos]
  rw [Bool.and_eq_true]
  refine ⟨bne_iff_ne.mpr hnc, ?_⟩
  rcases List.any_eq_true.mp hb with ⟨b, hbmem, hpred⟩
  simp only [Bool.and_eq_true, beq_iff_eq, bne_iff_ne] at hpred
  obtain ⟨⟨⟨⟨hD, hdt⟩, hnc'⟩, hs⟩, he⟩ := hpred
  refine List.any_eq_true.mpr ⟨b, hbmem, ?_⟩
  rw [Bool.and_eq_true]
  exact ⟨bne_iff_ne.mpr hnc', beq_iff_eq.mpr (by simp [aptKey, hD, hdt, hs, he])⟩

theorem insertDoc_some_of_free {apts : List Appointment} {a : Appointment}
    (hfree : isBookedIn apts a.doctorId a.appointmentDate a.startTime a.endTime
      = false) : insertDoc apts a = some (a :: apts) := by
  unfold insertDoc
  rw [if_neg]
  intro hcon
  rw [Bool.and_eq_true, List.any_eq_true] at hcon
  rcases hcon.2 with ⟨b, hbmem, hpred⟩
  rw [Bool.and_eq_true, beq_iff_eq] at hpred
  have hkey := hpred.2
  simp only [aptKey, Prod.mk.injEq] at hkey
  have : isBookedIn apts a.doctorId a.appointmentDate a.startTime a.endTime
      = true := by
    refine List.any_eq_true.mpr ⟨b, hbmem, ?_⟩
    simp only [Bool.and_eq_true, beq_iff_eq, bne_iff_ne]
    exact ⟨⟨⟨⟨hkey.1, hkey.2.1⟩, bne_iff_ne.mp hpred.1⟩, hkey.2.2.1⟩, hkey.2.2.2⟩
  rw [this] at hfree
  cases hfree

theorem bookAppointmentRaced_success {chk ins : List Appointment}
    {today p D d : Nat} {s e : HM} {st sy : String}
    (hd : today ≤ d) (hav : isSlotAvailable chk D d s e = true)
    (hse : s.toMinutes < e.toMinutes)
    (hfree : isBookedIn ins D d s e = false) :
    bookAppointmentRaced chk ins today p D d s e st sy =
      (.booked (mkBookedAppointment ins p D d s e st sy),
        mkBookedAppointment ins p D d s e st sy :: ins) := by
  unfold bookAppointmentRaced
  rw [if_neg (Nat.not_lt.mpr hd), hav]
  rw [if_neg (by simp), if_neg (Nat.not_le.mpr hse)]
  rw [insertDoc_some_of_free hfree]

theorem bookAppointmentRaced_conflict_of_duplicate {chk ins : List Appointment}
    {today p D d : Nat} {s e : HM} {st sy : String}
    (hd : today ≤ d) (hav : isSlotAvailable chk D d s e = true)
    (hse : s.toMinutes < e.toMinutes)
    (hdup : isBookedIn ins D d s e = true) :
    bookAppointmentRaced chk ins today p D d s e st sy = (.conflict, ins) := by
  unfold bookAppointmentRaced
  rw [if_neg (Nat.not_lt.mpr hd), hav]
  rw [if_neg (by simp), if_neg (Nat.not_le.mpr hse)]
  rw [insertDoc_none_of_booked (by intro hh; cases hh) hdup]

theorem buildSlots_cons_cancelled (ds : List ScheduleSlot)
    (apts : List Appointment) (a' : Appointment) (D d : Nat)
    (hc : a'.status = AptStatus.cancelled) :
    buildSlots ds (a' :: apts) D d = buildSlots ds apts D d := by
  rw [buildSlots_eq, buildSlots_eq]
  congr 1
  funext slot
  split
  · rfl
  · rw [isBookedIn_cons]
    have hfalse : (a'.doctorId == D && a'.appointmentDate == d &&
        a'.status != AptStatus.cancelled &&
        a'.startTime == convertTo24Hour slot.startTime &&
        a'.endTime == convertTo24Hour slot.endTime) = false := by
      simp [hc]
    rw [hfalse, Bool.false_or]

theorem resolve_ok_map {schedules : List WeeklySchedule}
    {apts1 apts2 : List Appointment} {doctorId date today : Nat}
    {slots : List SlotInfo} (g : SlotInfo → SlotInfo)
    (h1 : resolveAvailability schedules apts1 doctorId date today = .ok slots)
    (hb : ∀ ds, buildSlots ds apts2 doctorId date =
      (buildSlots ds apts1 doctorId date).map g) :
    resolveAvailability schedules apts2 doctorId date today =
      .ok (slots.map g) := by
  simp only [resolveAvailability] at h1 ⊢
  split at h1
  · cases h1
  next hpast =>
    rw [if_neg hpast]
    split at h1
    · cases h1
    next sch hfind =>
      split at h1
      · cases h1
      next hne =>
        rw [if_neg hne]
        injection h1 with h1
        rw [hb, h1]

/-! ## Total-hours lemmas -/

theorem day_foldl_minutes (dl : List ScheduleSlot) :
    ∀ acc : Int, (dl.foldl (fun acc2 slot =>
      if slot.type != "Day Off" && slot.isAvailable then
        acc2 + (slot.endTime.toMinutes - slot.startTime.toMinutes)
      else acc2) acc) = acc + (dl.map specSlotMinutes).sum := by
  induction dl with
  | nil =>
    intro acc
    simp
  | cons slot rest ih =>
    intro acc
    simp only [List.foldl_cons, List.map_cons, List.sum_cons]
    by_cases h1 : slot.type = "Day Off"
    · have hcond : (slot.type != "Day Off" && slot.isAvailable) = false := by
        simp [h1]
      rw [hcond]
      simp only [Bool.false_eq_true, if_false, ih]
      rw [specSlotMinutes, if_pos h1]
      omega
    · by_cases h2 : slot.isAvailable = true
      · have hcond : (slot.type != "Day Off" && slot.isAvailable) = true := by
          simp [h1, h2]
        rw [hcond]
        simp only [if_true, ih]
        rw [specSlotMinutes, if_neg h1, if_pos h2]
        omega
      · have hcond : (slot.type != "Day Off" && slot.isAvailable) = false := by
          rw [Bool.not_eq_true] at h2
          simp [h2]
        rw [hcond]
        simp only [Bool.false_eq_true, if_false, ih]
        rw [Bool.not_eq_true] at h2
        rw [specSlotMinutes, if_neg h1, h2]
        simp only [Bool.false_eq_true, if_false]
        omega

theorem calculateTotalHours_eq_spec (ws : WeeklySchedule) :
    calculateTotalHours ws = specTotalHours ws := by
  simp only [calculateTotalHours, specTotalHours]
  congr 2
  have houter : ∀ (L : List (List ScheduleSlot)) (acc : Int),
      (L.foldl (fun acc daySlots => daySlots.foldl (fun acc2 slot =>
        if slot.type != "Day Off" && slot.isAvailable then
          acc2 + (slot.endTime.toMinutes - slot.startTime.toMinutes)
        else acc2) acc) acc)
      = acc + (L.map (fun dl => (dl.map specSlotMinutes).sum)).sum := by
    intro L
    induction L with
    | nil =>
      intro acc
      simp
    | cons dl rest ihl =>
      intro acc
      simp only [List.foldl_cons, List.map_cons, List.sum_cons]
      rw [day_foldl_minutes, ihl]
      omega
  rw [houter]
  omega

/-! ## Claim theorems -/

/-- C7: for every WeeklySchedule and every date, no slot whose session type
is Day Off ever appears in the slot list returned by `resolveAvailability`,
regardless of the value of the slot's `isAvailable` flag. -/
theorem c7_day_off_excluded {schedules : List WeeklySchedule}
    {apts : List Appointment} {doctorId date today : Nat}
    {slots : List SlotInfo}
    (h : resolveAvailability schedules apts doctorId date today = .ok slots) :
    ∀ si ∈ slots, si.type ≠ "Day Off" := by
  obtain ⟨-, sch, -, -, -, -, -, -, hslots⟩ := resolve_ok_inv h
  subst hslots
  intro si hsi
  rw [buildSlots_eq] at hsi
  rcases List.mem_filterMap.mp hsi with ⟨slot, _, hf⟩
  by_cases hoff : (slot.type == "Day Off") = true
  · rw [if_pos hoff] at hf
    cases hf
  · rw [if_neg hoff] at hf
    injection hf with hf
    subst hf
    simpa using hoff

/-- Witness for C7: a concrete schedule slot surviving into the output of
`resolveAvailability` is not a Day Off slot. -/
theorem c7_day_off_excluded_witness :
    (⟨TimeStr.t24 ⟨9, 0⟩, TimeStr.t24 ⟨10, 0⟩, ⟨9, 0⟩, ⟨10, 0⟩,
      "Morning Consultations", true⟩ : SlotInfo).type ≠ "Day Off" :=
  c7_day_off_excluded
    (by decide : resolveAvailability [wsA] [] 1 103 0 =
      .ok [⟨TimeStr.t24 ⟨9, 0⟩, TimeStr.t24 ⟨10, 0⟩, ⟨9, 0⟩, ⟨10, 0⟩,
        "Morning Consultations", true⟩])
    _ (by decide)

/-- C3: in the availability output for (doctorId, date), a slot is marked
`available = false` iff some non-cancelled appointment of that doctor on
that date has (startTime, endTime) exactly equal to the slot's normalized
times; appointments that merely overlap a slot do not affect it. -/
theorem c3_exact_match {schedules : List WeeklySchedule}
    {apts : List Appointment} {doctorId date today : Nat}
    {slots : List SlotInfo}
    (h : resolveAvailability schedules apts doctorId date today = .ok slots) :
    ∀ si ∈ slots, (si.isAvailable = false ↔
      isBookedIn apts doctorId date si.startTime24 si.endTime24 = true) := by
  obtain ⟨-, sch, -, -, -, -, -, -, hslots⟩ := resolve_ok_inv h
  subst hslots
  intro si hsi
  rw [buildSlots_eq] at hsi
  rcases List.mem_filterMap.mp hsi with ⟨slot, _, hf⟩
  by_cases hoff : (slot.type == "Day Off") = true
  · rw [if_pos hoff] at hf
    cases hf
  · rw [if_neg hoff] at hf
    injection hf with hf
    subst hf
    cases hb : isBookedIn apts doctorId date (convertTo24Hour slot.startTime)
        (convertTo24Hour slot.endTime) <;> simp [hb]

/-- Witness for C3: the booked 9:00-10:00 slot of the concrete store is
marked unavailable exactly because `apt1` matches it. -/
theorem c3_exact_match_witness :
    ((⟨TimeStr.t24 ⟨9, 0⟩, TimeStr.t24 ⟨10, 0⟩, ⟨9, 0⟩, ⟨10, 0⟩,
      "Morning Consultations", false⟩ : SlotInfo).isAvailable = false ↔
      isBookedIn [apt1] 1 103 ⟨9, 0⟩ ⟨10, 0⟩ = true) :=
  c3_exact_match
    (by decide : resolveAvailability [wsA] [apt1] 1 103 0 =
      .ok [⟨TimeStr.t24 ⟨9, 0⟩, TimeStr.t24 ⟨10, 0⟩, ⟨9, 0⟩, ⟨10, 0⟩,
        "Morning Consultations", false⟩])
    _ (by decide)

/-- C5: patient cancellation of an owned scheduled/confirmed appointment is
rejected as too late exactly when the combined date+startTime instant is
less than 2 hours after now; on rejection the store is unchanged, and on
success the outcome is ok and every stored row is either untouched or
altered only in its status, which becomes cancelled. -/
theorem c5_cancel_lead_time {apts : List Appointment}
    {now aptId patientId : Nat} {a : Appointment}
    (hfind : apts.find? (cancelFilter aptId patientId) = some a) :
    ((cancelAppointment apts now aptId patientId).1 = .tooLate ↔
      combineInstant a.appointmentDate a.startTime < now + 120) ∧
    (combineInstant a.appointmentDate a.startTime < now + 120 →
      (cancelAppointment apts now aptId patientId).2 = apts) ∧
    (¬ combineInstant a.appointmentDate a.startTime < now + 120 →
      (cancelAppointment apts now aptId patientId).1 = .ok ∧
      List.Forall₂ (fun old new => new = old ∨
          new = { old with status := AptStatus.cancelled })
        apts (cancelAppointment apts now aptId patientId).2) := by
  unfold cancelAppointment
  simp only [hfind]
  by_cases hlt : combineInstant a.appointmentDate a.startTime < now + 120
  · rw [if_pos hlt]
    exact ⟨⟨fun _ => hlt, fun _ => rfl⟩, fun _ => rfl,
      fun hn => absurd hlt hn⟩
  · rw [if_neg hlt]
    refine ⟨⟨fun hc => CancelResult.noConfusion hc, fun hl => absurd hl hlt⟩,
      fun hl => absurd hl hlt, fun _ => ⟨rfl, ?_⟩⟩
    exact forall2_updateFirst _ _ apts

/-- Witness for C5: an appointment whose start instant is exactly 2 hours
and 1 minute away (minute 121, now 0) is cancelled successfully, with only
its status changing. -/
theorem c5_cancel_lead_time_witness :
    ((cancelAppointment [aptW] 0 2 1).1 = .tooLate ↔
      combineInstant aptW.appointmentDate aptW.startTime < 0 + 120) ∧
    (combineInstant aptW.appointmentDate aptW.startTime < 0 + 120 →
      (cancelAppointment [aptW] 0 2 1).2 = [aptW]) ∧
    (¬ combineInstant aptW.appointmentDate aptW.startTime < 0 + 120 →
      (cancelAppointment [aptW] 0 2 1).1 = .ok ∧
      List.Forall₂ (fun old new => new = old ∨
          new = { old with status := AptStatus.cancelled })
        [aptW] (cancelAppointment [aptW] 0 2 1).2) :=
  c5_cancel_lead_time (by decide)

/-- C10: the booking engine never consults the Schedule Store: a well-formed
request (date not before today, startTime strictly before endTime as
minutes) whose key conflicts with no stored non-cancelled appointment
succeeds and creates a scheduled appointment, even when no active
WeeklySchedule of the doctor covers that date. -/
theorem c10_book_without_schedule (schedules : List WeeklySchedule)
    (apts : List Appointment) (today p D d : Nat) (s e : HM) (st sy : String)
    (_hnosched : ∀ ws ∈ schedules, ¬(ws.doctorId = D ∧
      ws.status = SchedStatus.active ∧ coversDate ws d = true))
    (hd : today ≤ d) (hse : s.toMinutes < e.toMinutes)
    (hfree : isBookedIn apts D d s e = false) :
    bookAppointment apts today p D d s e st sy =
      (.booked (mkBookedAppointment apts p D d s e st sy),
        mkBookedAppointment apts p D d s e st sy :: apts) ∧
    (mkBookedAppointment apts p D d s e st sy).status = .scheduled ∧
    (mkBookedAppointment apts p D d s e st sy).doctorId = D ∧
    (mkBookedAppointment apts p D d s e st sy).appointmentDate = d ∧
    (mkBookedAppointment apts p D d s e st sy).startTime = s ∧
    (mkBookedAppointment apts p D d s e st sy).endTime = e := by
  have hav : isSlotAvailable apts D d s e = true := by
    rw [isSlotAvailable_eq_not_isBookedIn, hfree]
    rfl
  exact ⟨bookAppointmentRaced_success hd hav hse hfree, rfl, rfl, rfl, rfl, rfl⟩

/-- Witness for C10: doctor 9 has one active schedule covering only days
101-107, yet booking day 5 succeeds. -/
theorem c10_book_without_schedule_witness :
    bookAppointment [] 0 7 9 5 ⟨9, 0⟩ ⟨10, 0⟩ "Available" "" =
      (.booked (mkBookedAppointment [] 7 9 5 ⟨9, 0⟩ ⟨10, 0⟩ "Available" ""),
        [mkBookedAppointment [] 7 9 5 ⟨9, 0⟩ ⟨10, 0⟩ "Available" ""]) ∧
    (mkBookedAppointment [] 7 9 5 ⟨9, 0⟩ ⟨10, 0⟩ "Available" "").status
      = .scheduled ∧
    (mkBookedAppointment [] 7 9 5 ⟨9, 0⟩ ⟨10, 0⟩ "Available" "").doctorId
      = 9 ∧
    (mkBookedAppointment [] 7 9 5 ⟨9, 0⟩ ⟨10, 0⟩ "Available" "").appointmentDate
      = 5 ∧
    (mkBookedAppointment [] 7 9 5 ⟨9, 0⟩ ⟨10, 0⟩ "Available" "").startTime
      = ⟨9, 0⟩ ∧
    (mkBookedAppointment [] 7 9 5 ⟨9, 0⟩ ⟨10, 0⟩ "Available" "").endTime
      = ⟨10, 0⟩ :=
  c10_book_without_schedule [wsB] [] 0 7 9 5 ⟨9, 0⟩ ⟨10, 0⟩ "Available" ""
    (by decide) (by decide) (by decide) (by decide)

/-- C6 (amended): with startTime ≥ endTime the booking handler never writes
to the store and never succeeds, but the availability re-check runs before
the chronological-sanity check: such a request yields the validation error
when its slot is free and the date is not past, and the conflict error when
the slot is already taken. -/
theorem c6_validation_after_availability (apts : List Appointment)
    (today p D d : Nat) (s e : HM) (st sy : String)
    (hse : e.toMinutes ≤ s.toMinutes) :
    (bookAppointment apts today p D d s e st sy).2 = apts ∧
    (∀ a, (bookAppointment apts today p D d s e st sy).1 ≠ .booked a) ∧
    (today ≤ d → isSlotAvailable apts D d s e = true →
      (bookAppointment apts today p D d s e st sy).1 = .validationError) ∧
    (today ≤ d → isSlotAvailable apts D d s e = false →
      (bookAppointment apts today p D d s e st sy).1 = .conflict) := by
  unfold bookAppointment bookAppointmentRaced
  by_cases h1 : d < today
  · rw [if_pos h1]
    exact ⟨rfl, fun a h => BookResult.noConfusion h,
      fun hd _ => absurd h1 (Nat.not_lt.mpr hd),
      fun hd _ => absurd h1 (Nat.not_lt.mpr hd)⟩
  · rw [if_neg h1]
    cases hav : isSlotAvailable apts D d s e
    · rw [if_pos (by decide : (!false) = true)]
      exact ⟨rfl, fun a h => BookResult.noConfusion h,
        fun _ hc => Bool.noConfusion hc, fun _ _ => rfl⟩
    · rw [if_neg (by decide : ¬ (!true) = true), if_pos hse]
      exact ⟨rfl, fun a h => BookResult.noConfusion h,
        fun _ _ => rfl, fun _ hc => Bool.noConfusion hc⟩

/-- C6 counterexample: a request with startTime 10:00 ≥ endTime 09:00 whose
key is already occupied by `aptC6` is answered with the conflict outcome,
not a validation error, because the availability re-check runs first. -/
theorem c6_counterexample :
    bookAppointment [aptC6] 0 7 2 5 ⟨10, 0⟩ ⟨9, 0⟩ "Morning Consultations" ""
      = (.conflict, [aptC6]) := by decide

/-- Witness for C6 (amended): on an empty store the same malformed request
is answered with the validation error and the store stays empty. -/
theorem c6_validation_after_availability_witness :
    (bookAppointment [] 0 7 2 5 ⟨10, 0⟩ ⟨9, 0⟩ "Morning Consultations" "").2
      = ([] : List Appointment) ∧
    (bookAppointment [] 0 7 2 5 ⟨10, 0⟩ ⟨9, 0⟩ "Morning Consultations" "").1
      = .validationError :=
  ⟨(c6_validation_after_availability [] 0 7 2 5 ⟨10, 0⟩ ⟨9, 0⟩
      "Morning Consultations" "" (by decide)).1,
   (c6_validation_after_availability [] 0 7 2 5 ⟨10, 0⟩ ⟨9, 0⟩
      "Morning Consultations" "" (by decide)).2.2.1 (by decide) (by decide)⟩

/-- C2 counterexample: rescheduling `apt1` (doctor 1, day 103, 9:00-10:00,
scheduled) onto its own current slot is rejected with the conflict outcome:
the patient-path availability re-check finds the appointment itself. -/
theorem c2_counterexample :
    rescheduleAppointment [apt1] 0 1 1 103 ⟨9, 0⟩ ⟨10, 0⟩
      "Morning Consultations" = (.conflict, [apt1]) := by decide

/-- C2 (amended): the patient-initiated availability re-check does not
exclude the appointment being moved from the conflict query, so a
reschedule of an appointment onto its own current slot is always answered
with the conflict outcome whenever the lead-time gate passes. -/
theorem c2_self_slot_conflict {apts : List Appointment}
    {now aptId patientId : Nat} {a : Appointment} (st : String)
    (hfind : apts.find? (cancelFilter aptId patientId) = some a)
    (hlead : ¬ combineInstant a.appointmentDate a.startTime < now + 120) :
    rescheduleAppointment apts now aptId patientId a.appointmentDate
      a.startTime a.endTime st = (.conflict, apts) := by
  have hp := List.find?_some hfind
  simp only [cancelFilter, Bool.and_eq_true, Bool.or_eq_true, beq_iff_eq] at hp
  have hnc : a.status ≠ AptStatus.cancelled := by
    rcases hp.2 with h | h <;> rw [h] <;> intro hh <;> cases hh
  have hb : isBookedIn apts a.doctorId a.appointmentDate a.startTime a.endTime
      = true := by
    refine List.any_eq_true.mpr ⟨a, List.mem_of_find?_eq_some hfind, ?_⟩
    simp [hnc]
  unfold rescheduleAppointment
  simp only [hfind]
  rw [if_neg hlead, isSlotAvailable_eq_not_isBookedIn, hb]
  simp

/-- Witness for C2 (amended) on a concrete store and a later clock value. -/
theorem c2_self_slot_conflict_witness :
    rescheduleAppointment [apt1] 10 1 1 103 ⟨9, 0⟩ ⟨10, 0⟩ "Surgery"
      = (.conflict, [apt1]) :=
  @c2_self_slot_conflict [apt1] 10 1 1 apt1 "Surgery" (by decide) (by decide)

/-- C8: whenever a day's slot list is changed through the day-update route,
`totalHours` is recomputed as the 2-decimal rounding (here: hundredths of an
hour) of the summed `endTime - startTime` spans over all slots of all seven
days whose type is not Day Off and whose `isAvailable` is true; on the
spec's example day (9:00-10:30 consultations plus an 11:00-11:00 Day Off)
the recomputed value is exactly 1.50 hours. -/
theorem c8_total_hours_recompute :
    (∀ (ws : WeeklySchedule) (day : Weekday) (slots : List ScheduleSlot),
      (updateDaySchedule ws day slots).totalHours =
        specTotalHours (setDay ws day slots)) ∧
    (updateDaySchedule
      { doctorId := 1, weekStartDate := 0, weekEndDate := 6, createdAt := 0,
        monday := [], tuesday := [], wednesday := [], thursday := [],
        friday := [], saturday := [], sunday := [], totalHours := 0,
        status := SchedStatus.active }
      Weekday.monday
      [⟨.t24 ⟨9, 0⟩, .t24 ⟨10, 30⟩, "Morning Consultations", true⟩,
       ⟨.t24 ⟨11, 0⟩, .t24 ⟨11, 0⟩, "Day Off", true⟩]).totalHours = 150 := by
  constructor
  · intro ws day slots
    exact calculateTotalHours_eq_spec (setDay ws day slots)
  · decide

/-- C9 counterexample: doctor 1 has two active schedules covering day 103,
`wsA` created later (createdAt 10, week start 100) and `wsB` created
earlier (createdAt 5, week start 101).  The code serves `wsB`'s Surgery
slot -- the largest `weekStartDate` wins and the stored `weekEndDate` is
ignored -- while the claim's most-recently-created preference would serve
`wsA`'s Morning Consultations slot. -/
theorem c9_counterexample :
    resolveAvailability [wsA, wsB] [] 1 103 0 =
      .ok [⟨TimeStr.t24 ⟨11, 0⟩, TimeStr.t24 ⟨12, 0⟩, ⟨11, 0⟩, ⟨12, 0⟩,
        "Surgery", true⟩] ∧
    resolveAvailabilitySpecC9 [wsA, wsB] [] 1 103 0 =
      .ok [⟨TimeStr.t24 ⟨9, 0⟩, TimeStr.t24 ⟨10, 0⟩, ⟨9, 0⟩, ⟨10, 0⟩,
        "Morning Consultations", true⟩] ∧
    resolveAvailability [wsA, wsB] [] 1 103 0 ≠
      resolveAvailabilitySpecC9 [wsA, wsB] [] 1 103 0 := by decide

/-- C9 (amended): the resolver loads the active schedules of the doctor
ordered so the one with the latest `weekStartDate` is preferred and takes
the first whose inclusive range `[weekStartDate, weekStartDate + 6]`
(recomputed from the start date; the stored `weekEndDate` is not consulted)
contains the queried date under date-only comparison; if none matches, or
the matched weekday's slot list is empty, it returns the explicit
not-scheduled result, which is distinct from every slot-list result. -/
theorem c9_schedule_selection (schedules : List WeeklySchedule)
    (apts : List Appointment) (doctorId date today : Nat)
    (htoday : today ≤ date) :
    ((∀ s ∈ schedules, ¬(s.doctorId = doctorId ∧
        s.status = SchedStatus.active ∧ coversDate s date = true)) →
      resolveAvailability schedules apts doctorId date today =
        .notScheduled) ∧
    (∀ slots, resolveAvailability schedules apts doctorId date today =
        .ok slots →
      ∃ sch ∈ schedules, sch.doctorId = doctorId ∧
        sch.status = SchedStatus.active ∧ coversDate sch date = true ∧
        (∀ s' ∈ schedules, s'.doctorId = doctorId →
          s'.status = SchedStatus.active → coversDate s' date = true →
          s'.weekStartDate ≤ sch.weekStartDate) ∧
        sch.daySlots (weekdayOf date) ≠ [] ∧
        slots = buildSlots (sch.daySlots (weekdayOf date)) apts
          doctorId date) ∧
    (∀ slots : List SlotInfo, ResolveResult.notScheduled ≠ .ok slots) := by
  refine ⟨fun h => resolve_notScheduled_of_no_cover htoday h,
    fun slots h => ?_, fun slots h => ResolveResult.noConfusion h⟩
  obtain ⟨-, sch, h1, h2, h3, h4, h5, h6, h7⟩ := resolve_ok_inv h
  exact ⟨sch, h1, h2, h3, h4, h5, h6, h7⟩

/-- Witness for C9 (amended): a doctor with no schedules at all receives
the not-scheduled result. -/
theorem c9_schedule_selection_witness :
    resolveAvailability [] [] 1 103 0 = .notScheduled :=
  (c9_schedule_selection [] [] 1 103 0 (by decide)).1 (by decide)

/-- C4: if the resolver lists a slot with normalized times (s, e) for
(doctor, date) and that key is free, then booking it succeeds, after which
the resolver marks exactly the (s, e) entries of the same output
unavailable; cancelling the created appointment (inside the lead-time
window) then restores the resolver output -- cancellation exactly reverses
booking's effect on availability. -/
theorem c4_book_cancel_roundtrip {schedules : List WeeklySchedule}
    {apts : List Appointment} {doctorId date today : Nat}
    {slots0 : List SlotInfo} (p now : Nat) (s e : HM) (st sy : String)
    (hres : resolveAvailability schedules apts doctorId date today = .ok slots0)
    (hmem : ∃ si ∈ slots0, si.startTime24 = s ∧ si.endTime24 = e)
    (hfree : isBookedIn apts doctorId date s e = false)
    (hse : s.toMinutes < e.toMinutes)
    (hlead : ¬ combineInstant date s < now + 120) :
    bookAppointment apts today p doctorId date s e st sy =
      (.booked (mkBookedAppointment apts p doctorId date s e st sy),
        mkBookedAppointment apts p doctorId date s e st sy :: apts) ∧
    resolveAvailability schedules
      (mkBookedAppointment apts p doctorId date s e st sy :: apts)
      doctorId date today = .ok (slots0.map (markBooked s e)) ∧
    (∀ si ∈ slots0.map (markBooked s e),
      si.startTime24 = s → si.endTime24 = e → si.isAvailable = false) ∧
    (∃ si ∈ slots0.map (markBooked s e),
      si.startTime24 = s ∧ si.endTime24 = e ∧ si.isAvailable = false) ∧
    cancelAppointment
      (mkBookedAppointment apts p doctorId date s e st sy :: apts) now
      (mkBookedAppointment apts p doctorId date s e st sy).id p =
      (.ok, { mkBookedAppointment apts p doctorId date s e st sy with
          status := AptStatus.cancelled } :: apts) ∧
    resolveAvailability schedules
      ({ mkBookedAppointment apts p doctorId date s e st sy with
          status := AptStatus.cancelled } :: apts) doctorId date today
      = .ok slots0 := by
  have htoday : today ≤ date := (resolve_ok_inv hres).1
  have hav : isSlotAvailable apts doctorId date s e = true := by
    rw [isSlotAvailable_eq_not_isBookedIn, hfree]
    rfl
  have hbook : bookAppointment apts today p doctorId date s e st sy =
      (.booked (mkBookedAppointment apts p doctorId date s e st sy),
        mkBookedAppointment apts p doctorId date s e st sy :: apts) :=
    bookAppointmentRaced_success htoday hav hse hfree
  have hA3 : (mkBookedAppointment apts p doctorId date s e st sy).status ≠
      AptStatus.cancelled := by
    intro hh
    simp [mkBookedAppointment] at hh
  have hmap : resolveAvailability schedules
      (mkBookedAppointment apts p doctorId date s e st sy :: apts)
      doctorId date today = .ok (slots0.map (markBooked s e)) := by
    refine resolve_ok_map (markBooked s e) hres ?_
    intro ds
    exact buildSlots_insert ds apts
      (mkBookedAppointment apts p doctorId date s e st sy)
      doctorId date rfl rfl hA3
  have hforall : ∀ si ∈ slots0.map (markBooked s e),
      si.startTime24 = s → si.endTime24 = e → si.isAvailable = false := by
    intro si hsi
    rcases List.mem_map.mp hsi with ⟨si0, _, rfl⟩
    by_cases hc : si0.startTime24 = s ∧ si0.endTime24 = e
    · intro _ _
      simp [markBooked, hc]
    · intro h1 h2
      simp only [markBooked] at h1 h2
      rw [if_neg hc] at h1 h2
      exact absurd ⟨h1, h2⟩ hc
  have hexists : ∃ si ∈ slots0.map (markBooked s e),
      si.startTime24 = s ∧ si.endTime24 = e ∧ si.isAvailable = false := by
    rcases hmem with ⟨si0, hsi0, h1, h2⟩
    refine ⟨markBooked s e si0, List.mem_map_of_mem _ hsi0, ?_⟩
    simp [markBooked, h1, h2]
  have hfindA : (mkBookedAppointment apts p doctorId date s e st sy ::
      apts).find? (cancelFilter
        (mkBookedAppointment apts p doctorId date s e st sy).id p) =
      some (mkBookedAppointment apts p doctorId date s e st sy) := by
    refine List.find?_cons_of_pos _ ?_
    simp [cancelFilter, mkBookedAppointment]
  have hcancel : cancelAppointment
      (mkBookedAppointment apts p doctorId date s e st sy :: apts) now
      (mkBookedAppointment apts p doctorId date s e st sy).id p =
      (.ok, { mkBookedAppointment apts p doctorId date s e st sy with
          status := AptStatus.cancelled } :: apts) := by
    unfold cancelAppointment
    simp only [hfindA]
    have hlead' : ¬ combineInstant
        (mkBookedAppointment apts p doctorId date s e st sy).appointmentDate
        (mkBookedAppointment apts p doctorId date s e st sy).startTime <
        now + 120 := hlead
    rw [if_neg hlead']
    simp only [updateFirst]
    rw [if_pos (by simp :
      ((mkBookedAppointment apts p doctorId date s e st sy).id ==
        (mkBookedAppointment apts p doctorId date s e st sy).id) = true)]
  have hrestore : resolveAvailability schedules
      ({ mkBookedAppointment apts p doctorId date s e st sy with
          status := AptStatus.cancelled } :: apts) doctorId date today
      = .ok slots0 := by
    rw [resolve_congr (fun ds => buildSlots_cons_cancelled ds apts
      { mkBookedAppointment apts p doctorId date s e st sy with
        status := AptStatus.cancelled } doctorId date rfl)]
    exact hres
  exact ⟨hbook, hmap, hforall, hexists, hcancel, hrestore⟩

/-- Witness for C4 on the concrete schedule `wsA`, empty store, doctor 1,
day 103, slot 9:00-10:00. -/
theorem c4_book_cancel_roundtrip_witness :
    resolveAvailability [wsA]
      (mkBookedAppointment [] 1 1 103 ⟨9, 0⟩ ⟨10, 0⟩
        "Morning Consultations" "" :: []) 1 103 0 =
      .ok (List.map (markBooked ⟨9, 0⟩ ⟨10, 0⟩)
        [⟨TimeStr.t24 ⟨9, 0⟩, TimeStr.t24 ⟨10, 0⟩, ⟨9, 0⟩, ⟨10, 0⟩,
          "Morning Consultations", true⟩]) ∧
    resolveAvailability [wsA]
      ({ mkBookedAppointment [] 1 1 103 ⟨9, 0⟩ ⟨10, 0⟩
          "Morning Consultations" "" with status := AptStatus.cancelled }
        :: []) 1 103 0 =
      .ok [⟨TimeStr.t24 ⟨9, 0⟩, TimeStr.t24 ⟨10, 0⟩, ⟨9, 0⟩, ⟨10, 0⟩,
        "Morning Consultations", true⟩] := by
  have h := @c4_book_cancel_roundtrip [wsA] [] 1 103 0
    [⟨TimeStr.t24 ⟨9, 0⟩, TimeStr.t24 ⟨10, 0⟩, ⟨9, 0⟩, ⟨10, 0⟩,
      "Morning Consultations", true⟩] 1 0 ⟨9, 0⟩ ⟨10, 0⟩
    "Morning Consultations" ""
    (by decide)
    ⟨⟨TimeStr.t24 ⟨9, 0⟩, TimeStr.t24 ⟨10, 0⟩, ⟨9, 0⟩, ⟨10, 0⟩,
      "Morning Consultations", true⟩, by decide, by decide, by decide⟩
    (by decide) (by decide) (by decide)
  exact ⟨h.2.1, h.2.2.2.2.2⟩

/-- C1: the store-level uniqueness invariant -- at most one non-cancelled
appointment per (doctorId, appointmentDate, startTime, endTime) key,
expressed as pairwise key-distinctness of the non-cancelled rows -- is
preserved by every sequence of book, cancel and reschedule requests from
any store satisfying it (with distinct ids); and when the persistence layer
rejects a booking insert as a duplicate (a non-cancelled appointment holds
the key at insert time although the earlier availability re-check passed),
the booking engine answers with the same conflict outcome as the re-check
path, not a generic failure. -/
theorem c1_uniqueness_and_conflict_translation :
    (∀ (apts : List Appointment) (ops : List Op),
      SlotOk apts → IdsOk apts → SlotOk (applyOps apts ops)) ∧
    (∀ (chk ins : List Appointment) (today p D d : Nat) (s e : HM)
        (st sy : String),
      today ≤ d → isSlotAvailable chk D d s e = true →
      s.toMinutes < e.toMinutes → isBookedIn ins D d s e = true →
      bookAppointmentRaced chk ins today p D d s e st sy =
        (.conflict, ins)) := by
  constructor
  · intro apts ops hok hids
    exact (wf_applyOps ⟨hok, hids⟩ ops).1
  · intro chk ins today p D d s e st sy hd hav hse hdup
    exact bookAppointmentRaced_conflict_of_duplicate hd hav hse hdup

/-- Witness for C1: a concrete book-book-cancel-reschedule sequence from the
empty store keeps keys unique, and a booking whose re-check saw a stale
empty store but whose insert hits the key held by `apt1` is answered with
the conflict outcome. -/
theorem c1_witness :
    SlotOk (applyOps []
      [Op.book 0 1 1 103 ⟨9, 0⟩ ⟨10, 0⟩ "Available" "",
       Op.book 0 2 1 103 ⟨9, 0⟩ ⟨10, 0⟩ "Available" "",
       Op.cancel 0 1 1,
       Op.reschedulePatient 0 1 2 104 ⟨9, 0⟩ ⟨10, 0⟩ "Surgery"]) ∧
    bookAppointmentRaced [] [apt1] 0 7 1 103 ⟨9, 0⟩ ⟨10, 0⟩ "Available" "" =
      (.conflict, [apt1]) :=
  ⟨c1_uniqueness_and_conflict_translation.1 _ _
      (by simp [SlotOk]) (by simp [IdsOk]),
   c1_uniqueness_and_conflict_translation.2 [] [apt1] 0 7 1 103 ⟨9, 0⟩
      ⟨10, 0⟩ "Available" "" (by decide) (by decide) (by decide) (by decide)⟩
